import Mathlib

/-!
# Verification of the work-package scheduler of `CodingTeam`

Shallow embedding of the dependency-driven work-package scheduler implemented
in `src/team/coding_team.py` (class `CodingTeam`), together with theorems
settling the specification claims about it.

Modelling conventions:
* A work package is the dictionary produced by the planner; the scheduler
  reads the keys `package_id`, `agent`, `dependencies` and `files_to_create`
  (each file entry read through its `file_path` key).  Missing keys default to
  the Python defaults (`""` for `agent`, `[]` for the lists), so the fields
  are total here.
* The pool of agents (`self.agents`, built in `initialize_team`) is modelled
  by the list of its keys; `dict.get` becomes an `Option`-returning lookup.
* A worker invocation (`agent.execute_step`) is an external effect; it is
  modelled as an oracle `Nat → String → Except String Unit` giving, for each
  loop iteration and package id, either success or a raised exception with its
  message.  `_execute_single_package` catches every exception, so the
  scheduler itself is total.
* The `while` loop of `execute_work_packages` is embedded with explicit fuel;
  running out of fuel is reported by the distinguished exit kind
  `ExitKind.fuelOut`, while the two real exits of the Python loop are
  `ExitKind.blocked` (the `break` on an empty ready set) and
  `ExitKind.allDone` (the `while` condition turning false).
* Python's `str.lower` is modelled with `Char.toLower`; the two agree on the
  ASCII strings appearing in paths and tags considered here.
-/

/-- Python `s.lower()` (character-wise, ASCII-faithful). -/
def str_lower (s : String) : String := ⟨s.data.map Char.toLower⟩

/-- Substring search on character lists: does `needle` occur contiguously in
`hay`? -/
def chars_sub (needle : List Char) : List Char → Bool
  | [] => needle.isEmpty
  | c :: rest => needle.isPrefixOf (c :: rest) || chars_sub needle rest

/-- Python `needle in hay` on strings: substring containment. -/
def str_contains (hay needle : String) : Bool := chars_sub needle.data hay.data

/-- Python `s.endswith(suffix)`. -/
def str_endswith (s suffix : String) : Bool := suffix.data.isSuffixOf s.data

/-- One entry of a package's `files_to_create` list (only `file_path` is read
by the scheduler/router, see `coding_team.py:358` and `:444`). -/
structure FileSpec where
  file_path : String
deriving Repr, DecidableEq

/-- A work package as read by `CodingTeam` (`coding_team.py:302-316,336-358`):
`package_id`, optional `agent` tag (default `""`), `dependencies` id list and
`files_to_create`. -/
structure WorkPackage where
  package_id : String
  agent : String
  dependencies : List String
  files_to_create : List FileSpec
deriving Repr, DecidableEq

/-- `CodingTeam._get_file_type` (`coding_team.py:374-400`): classify a file
path into a type category, checking the `test`/`spec` substrings first, then
extensions, then further substring families. -/
def get_file_type (file_path : String) : String :=
  if file_path = "" then "unknown"
  else
    let path_lower := str_lower file_path
    if str_contains path_lower "test" || str_contains path_lower "spec" then "test"
    else if str_endswith path_lower ".py" || str_endswith path_lower ".pyx" then "python"
    else if str_endswith path_lower ".js" || str_endswith path_lower ".ts" ||
            str_endswith path_lower ".jsx" || str_endswith path_lower ".tsx" then "javascript"
    else if str_endswith path_lower ".html" || str_endswith path_lower ".htm" then "html"
    else if str_endswith path_lower ".css" || str_endswith path_lower ".scss" ||
            str_endswith path_lower ".sass" then "css"
    else if str_endswith path_lower ".json" || str_endswith path_lower ".yaml" ||
            str_endswith path_lower ".yml" then "config"
    else if str_contains path_lower "docker" || str_contains path_lower "deploy" ||
            str_contains path_lower "ci" || str_contains path_lower "cd" then "deploy"
    else if str_contains path_lower "ml" || str_contains path_lower "model" ||
            str_contains path_lower "train" || str_contains path_lower "predict" ||
            str_contains path_lower "data" then "ml"
    else if str_contains path_lower "api" || str_contains path_lower "server" ||
            str_contains path_lower "backend" then "api"
    else "generic"

/-- The `agent_mapping` dict of `_find_agent_for_package`
(`coding_team.py:341-349`). -/
def agent_mapping : List (String × String) :=
  [("backend_engineer", "backend_specialist"),
   ("frontend_engineer", "frontend_specialist"),
   ("fullstack_engineer", "fullstack_specialist"),
   ("ml_engineer", "ml_specialist"),
   ("devops_engineer", "devops_specialist"),
   ("qa_engineer", "qa_specialist"),
   ("requirements_analyst", "requirements_analyst")]

/-- Python `agent_mapping.get(agent_name, agent_name)` (`coding_team.py:352`). -/
def mapped_agent_name (name : String) : String :=
  match agent_mapping.lookup name with
  | some m => m
  | none => name

/-- The keys of `self.agents` as populated by `initialize_team`
(`coding_team.py:96-150`). -/
def registered_agents : List String :=
  ["backend_specialist", "frontend_specialist", "fullstack_specialist",
   "ml_specialist", "devops_specialist", "qa_specialist", "requirements_analyst"]

/-- Python `self.agents.get(k)`: `some k` when the key is present (the agent
object is identified with its key), `none` otherwise. -/
def agents_get (agents : List String) (k : String) : Option String :=
  if agents.contains k then some k else none

/-- `CodingTeam._find_agent_for_package` (`coding_team.py:336-372`): exact
(case-sensitive) lookup of the alias-mapped agent tag, then the file-type
fallback cascade, defaulting to the fullstack specialist. -/
def find_agent_for_package (agents : List String) (package : WorkPackage) : Option String :=
  let mapped := mapped_agent_name package.agent
  if agents.contains mapped then some mapped
  else
    let file_types := package.files_to_create.map (fun f => get_file_type f.file_path)
    if file_types.any (fun ft => ft == "python" || ft == "api") then
      agents_get agents "backend_specialist"
    else if file_types.any (fun ft => ft == "html" || ft == "css" || ft == "javascript") then
      agents_get agents "frontend_specialist"
    else if file_types.any (fun ft => ft == "ml" || ft == "data") then
      agents_get agents "ml_specialist"
    else if file_types.any (fun ft => ft == "docker" || ft == "deploy") then
      agents_get agents "devops_specialist"
    else if file_types.any (fun ft => ft == "test") then
      agents_get agents "qa_specialist"
    else
      agents_get agents "fullstack_specialist"

/-- Python `all(dep in self.completed_packages for dep in dependencies)`
(`coding_team.py:308`). -/
def deps_completed (completed : List String) (package : WorkPackage) : Bool :=
  package.dependencies.all (fun dep => completed.contains dep)

/-- `CodingTeam._get_available_packages` (`coding_team.py:298-311`): the
packages not yet completed whose dependencies are all completed, in original
declaration order. -/
def get_available_packages (wps : List WorkPackage) (completed : List String) :
    List WorkPackage :=
  wps.filter (fun p => !(completed.contains p.package_id) && deps_completed completed p)

/-- `CodingTeam._execute_single_package` (`coding_team.py:313-334`): route the
package; if no agent is found, return with no state change; otherwise the
worker runs and on success (`result = Except.ok ()`) the package id is appended
to `completed_packages`; a raised exception (`Except.error msg`) is caught and
leaves the state unchanged — nothing records the failure. -/
def execute_single_package (agents : List String) (result : Except String Unit)
    (completed : List String) (package : WorkPackage) : List String :=
  match find_agent_for_package agents package with
  | none => completed
  | some _ =>
    match result with
    | Except.ok _ => completed ++ [package.package_id]
    | Except.error _ => completed

/-- One batch of `asyncio.gather(*tasks, return_exceptions=True)`
(`coding_team.py:290-292`): every package of the batch is attempted, each
folding its own outcome into `completed_packages`. -/
def execute_batch (agents : List String) (worker : Nat → String → Except String Unit)
    (iter : Nat) (batch : List WorkPackage) (completed : List String) : List String :=
  batch.foldl (fun acc p => execute_single_package agents (worker iter p.package_id) acc p)
    completed

/-- How the scheduling loop of `execute_work_packages` ended: the `while`
condition became false (`allDone`), the `break` on an empty ready set fired
(`blocked`), or the modelling fuel ran out (`fuelOut`, representing a loop
still running after that many iterations). -/
inductive ExitKind where
  | allDone : ExitKind
  | blocked : ExitKind
  | fuelOut : ExitKind
deriving Repr, DecidableEq

/-- One dispatch record: the batch handed to `_execute_single_package` and the
contents of `completed_packages` at selection time. -/
structure BatchRecord where
  batch : List WorkPackage
  completedBefore : List String
deriving Repr, DecidableEq

/-- Result of running the scheduling loop: final `completed_packages`, the
dispatch log, and how the loop ended. -/
structure RunOutcome where
  completed : List String
  log : List BatchRecord
  exit : ExitKind
deriving Repr, DecidableEq

/-- The `while` loop of `CodingTeam.execute_work_packages`
(`coding_team.py:274-295`), with explicit fuel.  Each iteration recomputes the
available packages, breaks when none are available, otherwise dispatches the
first `batch_size` of them and folds the outcomes into `completed_packages`. -/
def execute_work_packages_loop (agents : List String)
    (worker : Nat → String → Except String Unit) (wps : List WorkPackage)
    (batch_size : Nat) :
    Nat → Nat → List String → List BatchRecord → RunOutcome
  | 0, _, completed, log => ⟨completed, log, ExitKind.fuelOut⟩
  | fuel + 1, iter, completed, log =>
    if completed.length < wps.length then
      if (get_available_packages wps completed).isEmpty then
        ⟨completed, log, ExitKind.blocked⟩
      else
        execute_work_packages_loop agents worker wps batch_size fuel (iter + 1)
          (execute_batch agents worker iter
            ((get_available_packages wps completed).take batch_size) completed)
          (log ++ [⟨(get_available_packages wps completed).take batch_size, completed⟩])
    else ⟨completed, log, ExitKind.allDone⟩

/-- `CodingTeam.execute_work_packages` (`coding_team.py:266-296`): run the
scheduling loop from the initial empty `completed_packages`. -/
def execute_work_packages (agents : List String)
    (worker : Nat → String → Except String Unit) (wps : List WorkPackage)
    (batch_size fuel : Nat) : RunOutcome :=
  execute_work_packages_loop agents worker wps batch_size fuel 0 [] []

/-- The only validation performed before the scheduling loop:
`analyze_problem_systematically` (`coding_team.py:243-264`) raises exactly when
the planner produced no work packages; no cycle or dependency-reference check
exists anywhere. -/
def analyze_problem_validation (wps : List WorkPackage) : Except String Unit :=
  if wps.isEmpty then Except.error "No work packages were created by the Principle Engineer"
  else Except.ok ()

/-- The `blocked_packages` expression of `coding_team.py:279`: the packages
whose id is not in `completed_packages` (computed for the error log only). -/
def blocked_packages (wps : List WorkPackage) (completed : List String) :
    List WorkPackage :=
  wps.filter (fun p => !(completed.contains p.package_id))

/-- The package-status content of the report built by
`CodingTeam.generate_final_report` (`coding_team.py:427-482`): total and
completed counts, the artifact paths of completed packages, and per-agent
completed-package ids (the `agent_status` entries collected from
`SmartCodingAgent.get_completion_status`, reconstructed through the
deterministic routing).  The remaining report fields (timing, workspace
statistics, escalation count, `final_state`) carry no per-package status.
The Python `success_rate` is a float of `completed/total` and adds no
package-identifying information, so it is omitted. -/
structure ReportSummary where
  total : Nat
  completedCount : Nat
  artifacts : List String
  agent_status : List (String × List String)
deriving Repr, DecidableEq

/-- Build the `ReportSummary` from the scheduler state, following
`generate_final_report` (`coding_team.py:440-472`). -/
def generate_final_report (agents : List String) (wps : List WorkPackage)
    (completed : List String) : ReportSummary :=
  { total := wps.length
    completedCount := completed.length
    artifacts :=
      ((wps.filter (fun p => completed.contains p.package_id)).map
        (fun p => p.files_to_create.map (fun f => f.file_path))).flatten
    agent_status :=
      agents.map (fun a =>
        (a, (wps.filter (fun p => completed.contains p.package_id &&
              find_agent_for_package agents p == some a)).map
            (fun p => p.package_id))) }

/-- A worker oracle that always succeeds. -/
def ok_worker : Nat → String → Except String Unit := fun _ _ => Except.ok ()

/-- A worker oracle that always raises. -/
def fail_worker : Nat → String → Except String Unit := fun _ _ => Except.error "worker raised"

/-- All package ids ever dispatched, in dispatch order. -/
def joined_dispatch_log (log : List BatchRecord) : List String :=
  (log.map (fun r => r.batch.map (fun p => p.package_id))).flatten

/-- Whether a package's dispatch succeeds: an agent is found and the worker
returns without raising (the condition under which `_execute_single_package`
appends to `completed_packages`). -/
def package_succeeds (agents : List String) (worker : Nat → String → Except String Unit)
    (iter : Nat) (p : WorkPackage) : Bool :=
  (find_agent_for_package agents p).isSome &&
    (match worker iter p.package_id with
     | Except.ok _ => true
     | Except.error _ => false)

/-- A dependency-free package. -/
def pkgA : WorkPackage := ⟨"PKG_A", "", [], []⟩

/-- A package depending on `PKG_A`. -/
def pkgB : WorkPackage := ⟨"PKG_B", "", ["PKG_A"], []⟩

/-- First half of a two-package dependency cycle. -/
def pkgCy1 : WorkPackage := ⟨"PKG_X", "", ["PKG_Y"], []⟩

/-- Second half of a two-package dependency cycle. -/
def pkgCy2 : WorkPackage := ⟨"PKG_Y", "", ["PKG_X"], []⟩

/-- A package with an unknown agent tag and no file hints (Scenario 3 of the
spec). -/
def pkgE : WorkPackage := ⟨"PKG_E", "unknown_tag", [], []⟩

/-- A package whose agent tag equals the registered name
`backend_specialist` up to letter case only. -/
def pkg_case : WorkPackage := ⟨"PKG_CASE", "Backend_Specialist", [], []⟩

/-- A package whose worker will fail in the C6 scenario. -/
def pkgF : WorkPackage := ⟨"PKG_F", "", [], []⟩

/-- A sibling package dispatched in the same batch as `pkgF`. -/
def pkgG : WorkPackage := ⟨"PKG_G", "", [], []⟩

/-- A package declaring a dependency on an id that names no package. -/
def pkgDangling : WorkPackage := ⟨"PKG_P", "", ["PKG_MISSING"], []⟩

/-- A package with an unmapped agent tag whose only file is a Python test
file. -/
def pkg_qa : WorkPackage := ⟨"PKG_Q", "coder", [], [⟨"tests/test_api.py"⟩]⟩

/-- A package whose agent tag is the engineer alias of the backend
specialist. -/
def pkg_alias : WorkPackage := ⟨"PKG_BE", "backend_engineer", [], []⟩

/-- Run 1 for the C3 counterexample: `PKG_A` completes, `PKG_B` is blocked by
a missing dependency. -/
def wpsR1 : List WorkPackage := [pkgA, ⟨"PKG_B", "", ["PKG_MISSING"], []⟩]

/-- Run 2 for the C3 counterexample: `PKG_A` completes, `PKG_D` is blocked by
a missing dependency. -/
def wpsR2 : List WorkPackage := [pkgA, ⟨"PKG_D", "", ["PKG_MISSING"], []⟩]

/-- The two-package set containing a dangling dependency, for the C9
witness. -/
def wps9 : List WorkPackage := [pkgA, pkgDangling]

/-! ## Basic lemmas about the scheduler -/

/-- Unfolding the loop at zero fuel. -/
theorem loop_zero (agents : List String) (w : Nat → String → Except String Unit)
    (wps : List WorkPackage) (bs iter : Nat) (c : List String) (l : List BatchRecord) :
    execute_work_packages_loop agents w wps bs 0 iter c l = ⟨c, l, ExitKind.fuelOut⟩ := rfl

/-- Unfolding the loop at successor fuel. -/
theorem loop_succ (agents : List String) (w : Nat → String → Except String Unit)
    (wps : List WorkPackage) (bs fuel iter : Nat) (c : List String) (l : List BatchRecord) :
    execute_work_packages_loop agents w wps bs (fuel + 1) iter c l =
      if c.length < wps.length then
        if (get_available_packages wps c).isEmpty then ⟨c, l, ExitKind.blocked⟩
        else
          execute_work_packages_loop agents w wps bs fuel (iter + 1)
            (execute_batch agents w iter ((get_available_packages wps c).take bs) c)
            (l ++ [⟨(get_available_packages wps c).take bs, c⟩])
      else ⟨c, l, ExitKind.allDone⟩ := rfl

/-- Membership in the ready set, unfolded. -/
theorem mem_get_available_packages {wps : List WorkPackage} {completed : List String}
    {p : WorkPackage} :
    p ∈ get_available_packages wps completed ↔
      p ∈ wps ∧ completed.contains p.package_id = false ∧
        deps_completed completed p = true := by
  simp [get_available_packages, List.mem_filter]

/-- `deps_completed` says every dependency id is in `completed`. -/
theorem deps_completed_iff {completed : List String} {p : WorkPackage} :
    deps_completed completed p = true ↔ ∀ d ∈ p.dependencies, d ∈ completed := by
  simp [deps_completed, List.all_eq_true]

/-- A batch appends exactly the ids of its successfully executed packages. -/
theorem execute_batch_eq (agents : List String) (w : Nat → String → Except String Unit)
    (iter : Nat) (batch : List WorkPackage) (completed : List String) :
    execute_batch agents w iter batch completed =
      completed ++ (batch.filter (package_succeeds agents w iter)).map
        (fun p => p.package_id) := by
  induction batch generalizing completed with
  | nil => simp [execute_batch]
  | cons p rest ih =>
    have hfold : execute_batch agents w iter (p :: rest) completed =
        execute_batch agents w iter rest
          (execute_single_package agents (w iter p.package_id) completed p) := rfl
    rw [hfold, ih]
    unfold execute_single_package
    cases hf : find_agent_for_package agents p with
    | none => simp [List.filter_cons, package_succeeds, hf]
    | some a =>
      cases hw : w iter p.package_id with
      | ok u => simp [List.filter_cons, package_succeeds, hf, hw]
      | error e => simp [List.filter_cons, package_succeeds, hf, hw]

/-- With the full agent registry of `initialize_team`, routing never fails:
the fallback always lands on a registered agent. -/
theorem find_agent_registered_isSome (p : WorkPackage) :
    (find_agent_for_package registered_agents p).isSome = true := by
  simp only [find_agent_for_package]
  split
  · rfl
  · split
    · rfl
    · split
      · rfl
      · split
        · rfl
        · split
          · rfl
          · split
            · rfl
            · rfl

/-- The ids of any batch drawn from the ready set are distinct whenever the
declared package ids are distinct. -/
theorem batch_ids_nodup {wps : List WorkPackage}
    (h : (wps.map (fun p => p.package_id)).Nodup)
    (completed : List String) (bs : Nat) :
    (((get_available_packages wps completed).take bs).map
      (fun p => p.package_id)).Nodup := by
  have hs : List.Sublist ((get_available_packages wps completed).take bs) wps :=
    (List.take_sublist _ _).trans (List.filter_sublist _)
  exact (hs.map _).nodup h

/-- Appending one record to the dispatch log appends its batch ids. -/
theorem joined_dispatch_log_append (l : List BatchRecord) (r : BatchRecord) :
    joined_dispatch_log (l ++ [r]) =
      joined_dispatch_log l ++ r.batch.map (fun p => p.package_id) := by
  simp [joined_dispatch_log]

/-- A duplicate-free list properly contained in another is strictly
shorter. -/
theorem nodup_subset_length_lt {l l' : List String} (h1 : l.Nodup)
    (h2 : ∀ x ∈ l, x ∈ l') {x : String} (hx : x ∈ l') (hxl : x ∉ l) :
    l.length < l'.length := by
  have hsub : l.toFinset ⊆ l'.toFinset := by
    intro a ha
    rw [List.mem_toFinset] at ha ⊢
    exact h2 a ha
  have hss : l.toFinset ⊂ l'.toFinset := by
    refine ⟨hsub, fun hcon => hxl ?_⟩
    have := hcon (List.mem_toFinset.mpr hx)
    exact List.mem_toFinset.mp this
  have hlt := Finset.card_lt_card hss
  have hcl : l.toFinset.card = l.length := List.toFinset_card_of_nodup h1
  have hcl' : l'.toFinset.card ≤ l'.length := l'.toFinset_card_le
  omega

/-- `List.contains` being false means non-membership (strings). -/
theorem contains_false_not_mem {l : List String} {a : String}
    (h : l.contains a = false) : a ∉ l := by
  simp at h
  exact h

/-! ## Claim C1 -/

/-- C1 counterexample: with a single dependency-free package whose worker
raises, the dispatch log of `execute_work_packages` contains the package in
two successive batches — the failed package is automatically re-selected and
re-dispatched, contradicting "every work package is dispatched at most
once". -/
theorem c1_counterexample :
    (execute_work_packages registered_agents fail_worker [pkgA] 3 2).log.map
      (fun r => r.batch.map (fun p => p.package_id)) = [["PKG_A"], ["PKG_A"]] := by
  decide

/-- C1 (amended): a package whose execution succeeds is never re-dispatched:
when every worker invocation succeeds and the declared package ids are
distinct, no id occurs twice in the dispatch log of a run over the
initialized agent registry.  (A package whose execution raises, by contrast,
is re-selected into the next batch, as the counterexample shows.) -/
theorem c1_amended_no_redispatch_after_success
    (w : Nat → String → Except String Unit) (wps : List WorkPackage)
    (bs fuel : Nat) (hn : (wps.map (fun p => p.package_id)).Nodup)
    (hw : ∀ i id, w i id = Except.ok ()) :
    (joined_dispatch_log
      (execute_work_packages registered_agents w wps bs fuel).log).Nodup := by
  suffices h : ∀ fuel iter completed log,
      (joined_dispatch_log log).Nodup →
      (∀ id ∈ joined_dispatch_log log, id ∈ completed) →
      (joined_dispatch_log
        (execute_work_packages_loop registered_agents w wps bs fuel iter
          completed log).log).Nodup by
    exact h fuel 0 [] [] (by simp [joined_dispatch_log]) (by simp [joined_dispatch_log])
  intro fuel
  induction fuel with
  | zero => intro iter c l h1 _h2; exact h1
  | succ fuel ih =>
    intro iter c l h1 h2
    rw [loop_succ]
    split
    · split
      · exact h1
      · have hfilter :
            ((get_available_packages wps c).take bs).filter
              (package_succeeds registered_agents w iter) =
            (get_available_packages wps c).take bs := by
          apply List.filter_eq_self.mpr
          intro p _hp
          simp [package_succeeds, find_agent_registered_isSome p, hw iter p.package_id]
        apply ih
        · rw [joined_dispatch_log_append]
          apply List.Nodup.append h1 (batch_ids_nodup hn c bs)
          intro a ha hb
          have hac : a ∈ c := h2 a ha
          obtain ⟨p, hp, hpa⟩ := List.mem_map.mp hb
          have hpav : p ∈ get_available_packages wps c := List.mem_of_mem_take hp
          have := (mem_get_available_packages.mp hpav).2.1
          exact contains_false_not_mem this (hpa ▸ hac)
        · intro id hid
          rw [joined_dispatch_log_append] at hid
          rw [execute_batch_eq, hfilter]
          rcases List.mem_append.mp hid with h | h
          · exact List.mem_append.mpr (Or.inl (h2 id h))
          · exact List.mem_append.mpr (Or.inr h)
    · exact h1

/-- C1 witness: a concrete all-successful run over distinct ids has a
duplicate-free dispatch log. -/
theorem c1_witness :
    (joined_dispatch_log
      (execute_work_packages registered_agents ok_worker [pkgA, pkgB] 3 5).log).Nodup :=
  c1_amended_no_redispatch_after_success ok_worker [pkgA, pkgB] 3 5 (by decide)
    (fun _ _ => rfl)

/-! ## Claim C2 -/

/-- C2: every package ever handed to `_execute_single_package` had all its
dependency ids in `completed_packages` at selection time — for every agent
registry, worker behavior, package set, batch size and fuel. -/
theorem c2_dispatch_only_after_dependencies_completed
    (agents : List String) (w : Nat → String → Except String Unit)
    (wps : List WorkPackage) (bs fuel : Nat) :
    ∀ rec ∈ (execute_work_packages agents w wps bs fuel).log,
      ∀ p ∈ rec.batch, deps_completed rec.completedBefore p = true := by
  suffices h : ∀ fuel iter completed log,
      (∀ rec ∈ log, ∀ p ∈ rec.batch, deps_completed rec.completedBefore p = true) →
      ∀ rec ∈ (execute_work_packages_loop agents w wps bs fuel iter completed log).log,
        ∀ p ∈ rec.batch, deps_completed rec.completedBefore p = true by
    exact h fuel 0 [] [] (by simp)
  intro fuel
  induction fuel with
  | zero => intro iter c l hl; exact hl
  | succ fuel ih =>
    intro iter c l hl
    rw [loop_succ]
    split
    · split
      · exact hl
      · apply ih
        intro rec hrec p hp
        rcases List.mem_append.mp hrec with h | h
        · exact hl rec h p hp
        · rw [List.mem_singleton] at h
          subst h
          have hav : p ∈ get_available_packages wps c := List.mem_of_mem_take hp
          exact (mem_get_available_packages.mp hav).2.2
    · exact hl

/-- C2 witness: in the concrete two-package chain, `PKG_B` is dispatched with
record `⟨[pkgB], ["PKG_A"]⟩`, whose completed set contains its dependency. -/
theorem c2_witness : deps_completed ["PKG_A"] pkgB = true :=
  c2_dispatch_only_after_dependencies_completed registered_agents ok_worker
    [pkgA, pkgB] 3 5 ⟨[pkgB], ["PKG_A"]⟩ (by decide) pkgB (by decide)

/-! ## Claim C3 -/

/-- C3 counterexample: two blocked runs with different blocked packages
(`PKG_B` in the first, `PKG_D` in the second) produce exactly the same final
report — the report separates neither blocked nor failed packages, so the
caller cannot tell from the result which package never ran. -/
theorem c3_counterexample :
    generate_final_report registered_agents wpsR1
        (execute_work_packages registered_agents ok_worker wpsR1 3 5).completed =
      generate_final_report registered_agents wpsR2
        (execute_work_packages registered_agents ok_worker wpsR2 3 5).completed ∧
    blocked_packages wpsR1
        (execute_work_packages registered_agents ok_worker wpsR1 3 5).completed ≠
      blocked_packages wpsR2
        (execute_work_packages registered_agents ok_worker wpsR2 3 5).completed ∧
    (execute_work_packages registered_agents ok_worker wpsR1 3 5).exit =
      ExitKind.blocked ∧
    (execute_work_packages registered_agents ok_worker wpsR2 3 5).exit =
      ExitKind.blocked := by
  refine ⟨by decide, by decide, by decide, by decide⟩

/-- C3 (amended): when the ready set is empty while packages remain
incomplete, the loop does terminate at once through the `break` (exit kind
`blocked`), and the only trace in the returned report is the aggregate count
gap `completedCount < total`; the blocked ids themselves are only logged, not
reported. -/
theorem c3_amended_blocked_terminates_unreported
    (agents : List String) (w : Nat → String → Except String Unit)
    (wps : List WorkPackage) (bs fuel iter : Nat) (completed : List String)
    (log : List BatchRecord)
    (hav : get_available_packages wps completed = [])
    (hinc : completed.length < wps.length) :
    execute_work_packages_loop agents w wps bs (fuel + 1) iter completed log =
      ⟨completed, log, ExitKind.blocked⟩ ∧
    (generate_final_report agents wps completed).completedCount <
      (generate_final_report agents wps completed).total := by
  constructor
  · rw [loop_succ, if_pos hinc, hav]
    simp
  · exact hinc

/-- C3 amended-claim witness: the cyclic pair blocks immediately and the
report shows only the count gap. -/
theorem c3_witness :
    execute_work_packages_loop registered_agents ok_worker [pkgCy1, pkgCy2] 3 1 0 [] [] =
      ⟨[], [], ExitKind.blocked⟩ ∧
    (generate_final_report registered_agents [pkgCy1, pkgCy2] []).completedCount <
      (generate_final_report registered_agents [pkgCy1, pkgCy2] []).total :=
  c3_amended_blocked_terminates_unreported registered_agents ok_worker
    [pkgCy1, pkgCy2] 3 0 0 [] [] (by decide) (by decide)

/-! ## Claim C4 -/

/-- C4 counterexample: a one-package acyclic set whose worker always returns
(by raising) does not terminate within the claimed bound of one loop
iteration — nor within ten: the failed package is retried every iteration
forever, so the loop-iteration count is not bounded by the package count. -/
theorem c4_counterexample :
    (execute_work_packages registered_agents fail_worker [pkgA] 3 2).exit =
      ExitKind.fuelOut ∧
    (execute_work_packages registered_agents fail_worker [pkgA] 3 10).exit =
      ExitKind.fuelOut := by
  refine ⟨by decide, by decide⟩

/-- C4 (amended): when every worker invocation succeeds (and the batch width
is positive, over the initialized registry), the loop terminates within
`|wps| + 1` fuel and performs at most `|wps|` dispatching iterations; with a
permanently failing worker the loop never terminates, as the counterexample
shows. -/
theorem c4_amended_termination_when_workers_succeed
    (w : Nat → String → Except String Unit) (wps : List WorkPackage) (bs : Nat)
    (hbs : 0 < bs) (hw : ∀ i id, w i id = Except.ok ()) :
    (execute_work_packages registered_agents w wps bs (wps.length + 1)).exit ≠
      ExitKind.fuelOut ∧
    (execute_work_packages registered_agents w wps bs (wps.length + 1)).log.length ≤
      wps.length := by
  suffices h : ∀ fuel iter completed log, wps.length - completed.length < fuel →
      (execute_work_packages_loop registered_agents w wps bs fuel iter completed
        log).exit ≠ ExitKind.fuelOut ∧
      (execute_work_packages_loop registered_agents w wps bs fuel iter completed
        log).log.length ≤ log.length + (wps.length - completed.length) by
    have := h (wps.length + 1) 0 [] [] (by simp)
    exact ⟨this.1, by simpa using this.2⟩
  intro fuel
  induction fuel with
  | zero => intro iter c l hfuel; omega
  | succ fuel ih =>
    intro iter c l hfuel
    rw [loop_succ]
    by_cases hc : c.length < wps.length
    · rw [if_pos hc]
      by_cases hav : (get_available_packages wps c).isEmpty
      · rw [if_pos hav]
        exact ⟨by simp, by simp⟩
      · rw [if_neg hav]
        have hbatch : (get_available_packages wps c).take bs ≠ [] := by
          rw [Ne, List.take_eq_nil_iff]
          push_neg
          exact ⟨by omega, by simpa [List.isEmpty_iff] using hav⟩
        have hlen : 0 < ((get_available_packages wps c).take bs).length :=
          List.length_pos.mpr hbatch
        have hfilter :
            ((get_available_packages wps c).take bs).filter
              (package_succeeds registered_agents w iter) =
            (get_available_packages wps c).take bs := by
          apply List.filter_eq_self.mpr
          intro p _hp
          simp [package_succeeds, find_agent_registered_isSome p, hw iter p.package_id]
        have hcomp : (execute_batch registered_agents w iter
            ((get_available_packages wps c).take bs) c).length =
            c.length + ((get_available_packages wps c).take bs).length := by
          rw [execute_batch_eq, hfilter]
          simp
        have := ih (iter + 1)
          (execute_batch registered_agents w iter
            ((get_available_packages wps c).take bs) c)
          (l ++ [⟨(get_available_packages wps c).take bs, c⟩]) (by omega)
        refine ⟨this.1, ?_⟩
        have h2 := this.2
        simp only [List.length_append, List.length_singleton] at h2
        omega
    · rw [if_neg hc]
      exact ⟨by simp, by simp⟩

/-- C4 amended-claim witness: the all-successful two-package chain terminates
within three fuel and logs at most two batches. -/
theorem c4_witness :
    (execute_work_packages registered_agents ok_worker [pkgA, pkgB] 3 3).exit ≠
      ExitKind.fuelOut ∧
    (execute_work_packages registered_agents ok_worker [pkgA, pkgB] 3 3).log.length ≤ 2 :=
  c4_amended_termination_when_workers_succeed ok_worker [pkgA, pkgB] 3
    (by decide) (fun _ _ => rfl)

/-! ## Claim C5 -/

/-- C5 counterexample: the cyclic pair `PKG_X ↔ PKG_Y` is not rejected — the
only pre-run validation (raising when the planner produced no packages)
accepts it, the scheduling loop does begin, and it ends through the ordinary
empty-ready-set `break` with an empty dispatch log and no error of any
kind. -/
theorem c5_counterexample :
    analyze_problem_validation [pkgCy1, pkgCy2] = Except.ok () ∧
    execute_work_packages registered_agents ok_worker [pkgCy1, pkgCy2] 3 5 =
      ⟨[], [], ExitKind.blocked⟩ := by
  exact ⟨rfl, rfl⟩

/-- C5 (amended): no structural validation exists.  Any non-empty package set
passes the pre-run check, even one in which no package is initially ready
(e.g. a dependency cycle or dangling references); the loop then starts and
immediately terminates through the blocked `break`, dispatching nothing and
raising nothing. -/
theorem c5_amended_no_structural_rejection
    (agents : List String) (w : Nat → String → Except String Unit)
    (wps : List WorkPackage) (bs fuel : Nat) (hne : wps ≠ [])
    (hav : get_available_packages wps [] = []) :
    analyze_problem_validation wps = Except.ok () ∧
    execute_work_packages agents w wps bs (fuel + 1) = ⟨[], [], ExitKind.blocked⟩ := by
  constructor
  · simp [analyze_problem_validation, hne]
  · show execute_work_packages_loop agents w wps bs (fuel + 1) 0 [] [] = _
    rw [loop_succ, if_pos (by simpa [List.length_pos] using hne), hav]
    simp

/-- C5 amended-claim witness: the cyclic pair. -/
theorem c5_witness :
    analyze_problem_validation [pkgCy1, pkgCy2] = Except.ok () ∧
    execute_work_packages registered_agents fail_worker [pkgCy1, pkgCy2] 3 4 =
      ⟨[], [], ExitKind.blocked⟩ :=
  c5_amended_no_structural_rejection registered_agents fail_worker
    [pkgCy1, pkgCy2] 3 3 (by decide) (by decide)

/-! ## Claim C6 -/

/-- C6: `_execute_single_package` awaits the worker with no timeout
(`config.step_timeout_minutes` is never enforced), and a failure of any kind
— timeout-like or not — leaves the team state exactly unchanged: no `Failed`
status and no failure reason are recorded anywhere, so nothing distinguishes
a timeout.  Sibling `PKG_G` of the same batch still completes normally. -/
theorem c6_no_timeout_enforcement_no_failure_record :
    execute_single_package registered_agents
        (Except.error "TimeoutError: exceeded step_timeout_minutes") [] pkgF = [] ∧
    execute_single_package registered_agents
        (Except.error "ValueError: some application failure") [] pkgF = [] ∧
    execute_batch registered_agents
        (fun _ id => if id = "PKG_F"
          then Except.error "TimeoutError: exceeded step_timeout_minutes"
          else Except.ok ())
        0 [pkgF, pkgG] [] = ["PKG_G"] := by
  refine ⟨rfl, rfl, by decide⟩

/-! ## Claim C7 -/

/-- C7: when the (alias-mapped) agent tag is not registered, routing follows
exactly the fixed precedence over the file-type hints — backend
(`python`/`api`), then frontend (`html`/`css`/`javascript`), then ML
(`ml`/`data`), then ops (`docker`/`deploy`), then QA (`test`) — and falls
back to the fullstack specialist, never failing; in particular a package
with no files at all routes to the fullstack specialist. -/
theorem c7_fallback_routing_precedence (p : WorkPackage)
    (h : registered_agents.contains (mapped_agent_name p.agent) = false) :
    (p.files_to_create = [] →
      find_agent_for_package registered_agents p = some "fullstack_specialist") ∧
    find_agent_for_package registered_agents p =
      (let fts := p.files_to_create.map (fun f => get_file_type f.file_path)
       if fts.any (fun ft => ft == "python" || ft == "api") then
         some "backend_specialist"
       else if fts.any (fun ft => ft == "html" || ft == "css" || ft == "javascript") then
         some "frontend_specialist"
       else if fts.any (fun ft => ft == "ml" || ft == "data") then
         some "ml_specialist"
       else if fts.any (fun ft => ft == "docker" || ft == "deploy") then
         some "devops_specialist"
       else if fts.any (fun ft => ft == "test") then
         some "qa_specialist"
       else some "fullstack_specialist") := by
  have hmain : find_agent_for_package registered_agents p =
      (let fts := p.files_to_create.map (fun f => get_file_type f.file_path)
       if fts.any (fun ft => ft == "python" || ft == "api") then
         some "backend_specialist"
       else if fts.any (fun ft => ft == "html" || ft == "css" || ft == "javascript") then
         some "frontend_specialist"
       else if fts.any (fun ft => ft == "ml" || ft == "data") then
         some "ml_specialist"
       else if fts.any (fun ft => ft == "docker" || ft == "deploy") then
         some "devops_specialist"
       else if fts.any (fun ft => ft == "test") then
         some "qa_specialist"
       else some "fullstack_specialist") := by
    have h' : ¬ (registered_agents.contains (mapped_agent_name p.agent) = true) := by
      rw [h]
      exact Bool.false_ne_true
    simp only [find_agent_for_package]
    rw [if_neg h']
    rfl
  refine ⟨?_, hmain⟩
  intro hfiles
  rw [hmain]
  simp [hfiles]

/-- C7 witness: a package with an unknown tag and no file hints is routed to
the default fullstack specialist, not treated as a routing failure. -/
theorem c7_witness :
    find_agent_for_package registered_agents pkgE = some "fullstack_specialist" :=
  (c7_fallback_routing_precedence pkgE (by decide)).1 rfl

/-! ## Claim C8 -/

/-- C8 counterexample: the tag `"Backend_Specialist"` equals the registered
worker name `"backend_specialist"` up to letter case, yet routing does not
resolve it under the primary rule — the case-sensitive dict lookup misses and
the fallback routes the package to the fullstack specialist instead. -/
theorem c8_counterexample :
    str_lower pkg_case.agent = "backend_specialist" ∧
    registered_agents.contains "backend_specialist" = true ∧
    find_agent_for_package registered_agents pkg_case = some "fullstack_specialist" ∧
    find_agent_for_package registered_agents pkg_case ≠ some "backend_specialist" := by
  refine ⟨by decide, by decide, by decide, by decide⟩

/-- C8 (amended): primary-rule matching is case-sensitive: routing resolves a
package to a worker under the primary rule exactly when the alias-mapped tag
is written identically to a registered worker name; then it returns that
worker without consulting the payload. -/
theorem c8_amended_primary_rule_case_sensitive (p : WorkPackage)
    (h : registered_agents.contains (mapped_agent_name p.agent) = true) :
    find_agent_for_package registered_agents p = some (mapped_agent_name p.agent) := by
  simp only [find_agent_for_package]
  rw [if_pos h]

/-- C8 amended-claim witness: the exactly-spelled alias `backend_engineer`
resolves to the backend specialist. -/
theorem c8_witness :
    find_agent_for_package registered_agents pkg_alias = some "backend_specialist" :=
  c8_amended_primary_rule_case_sensitive pkg_alias (by decide)

/-! ## Claim C9 -/

/-- C9: a package `p` declaring a dependency `d` that names no package never
makes the scheduler raise: the pre-run validation accepts the set, `p` is
never selected into any batch, and the loop can only end through the
empty-ready-set `break` (or keep running), never through the all-completed
exit — for every agent registry, worker behavior, batch size and fuel,
provided the declared package ids are distinct. -/
theorem c9_dangling_dependency_is_silent
    (agents : List String) (w : Nat → String → Except String Unit)
    (wps : List WorkPackage) (bs fuel : Nat) (p : WorkPackage) (d : String)
    (hp : p ∈ wps) (hd : d ∈ p.dependencies)
    (hdm : d ∉ wps.map (fun q => q.package_id))
    (hn : (wps.map (fun q => q.package_id)).Nodup) :
    analyze_problem_validation wps = Except.ok () ∧
    (∀ rec ∈ (execute_work_packages agents w wps bs fuel).log, p ∉ rec.batch) ∧
    (execute_work_packages agents w wps bs fuel).exit ≠ ExitKind.allDone := by
  refine ⟨?_, ?_⟩
  · have hne : wps ≠ [] := List.ne_nil_of_mem hp
    simp [analyze_problem_validation, hne]
  · suffices h : ∀ fuel iter completed log,
        (∀ id ∈ completed, id ∈ wps.map (fun q => q.package_id)) →
        completed.Nodup →
        p.package_id ∉ completed →
        (∀ rec ∈ log, p ∉ rec.batch) →
        (∀ rec ∈ (execute_work_packages_loop agents w wps bs fuel iter completed
            log).log, p ∉ rec.batch) ∧
        (execute_work_packages_loop agents w wps bs fuel iter completed
            log).exit ≠ ExitKind.allDone by
      exact h fuel 0 [] [] (by simp) List.nodup_nil (by simp) (by simp)
    intro fuel
    induction fuel with
    | zero =>
      intro iter c l _h1 _h2 _h3 h4
      exact ⟨h4, by rw [loop_zero]; simp⟩
    | succ fuel ih =>
      intro iter c l h1 h2 h3 h4
      rw [loop_succ]
      by_cases hc : c.length < wps.length
      · rw [if_pos hc]
        by_cases hav : (get_available_packages wps c).isEmpty
        · rw [if_pos hav]
          exact ⟨h4, by simp⟩
        · rw [if_neg hav]
          have hpav : p ∉ get_available_packages wps c := by
            intro hmem
            have hdc := (mem_get_available_packages.mp hmem).2.2
            have hdin : d ∈ c := (deps_completed_iff.mp hdc) d hd
            exact hdm (h1 d hdin)
          have hpbatch : p ∉ (get_available_packages wps c).take bs :=
            fun hmem => hpav (List.mem_of_mem_take hmem)
          have hsubwps : ∀ q ∈ (get_available_packages wps c).take bs, q ∈ wps :=
            fun q hq =>
              (mem_get_available_packages.mp (List.mem_of_mem_take hq)).1
          have hbn : (((get_available_packages wps c).take bs).map
              (fun q => q.package_id)).Nodup := batch_ids_nodup hn c bs
          have hceq := execute_batch_eq agents w iter
            ((get_available_packages wps c).take bs) c
          apply ih
          · intro id hid
            rw [hceq] at hid
            rcases List.mem_append.mp hid with hh | hh
            · exact h1 id hh
            · obtain ⟨q, hq, hqe⟩ := List.mem_map.mp hh
              have hqb := List.mem_of_mem_filter hq
              exact hqe ▸ List.mem_map_of_mem _ (hsubwps q hqb)
          · rw [hceq]
            apply List.Nodup.append h2
            · exact ((List.filter_sublist _).map _).nodup hbn
            · intro a ha hb
              obtain ⟨q, hq, hqe⟩ := List.mem_map.mp hb
              have hqav : q ∈ get_available_packages wps c :=
                List.mem_of_mem_take (List.mem_of_mem_filter hq)
              have hqc := (mem_get_available_packages.mp hqav).2.1
              exact contains_false_not_mem hqc (by rwa [hqe])
          · rw [hceq]
            intro hmem
            rcases List.mem_append.mp hmem with hh | hh
            · exact h3 hh
            · obtain ⟨q, hq, hqe⟩ := List.mem_map.mp hh
              have hqb := List.mem_of_mem_filter hq
              have hqp : q = p :=
                List.inj_on_of_nodup_map hn (hsubwps q hqb) hp hqe
              exact hpbatch (hqp ▸ hqb)
          · intro rec hrec
            rcases List.mem_append.mp hrec with hh | hh
            · exact h4 rec hh
            · rw [List.mem_singleton] at hh
              subst hh
              exact hpbatch
      · exfalso
        apply hc
        have hlen : c.length < (wps.map (fun q => q.package_id)).length :=
          nodup_subset_length_lt h2 h1 (List.mem_map_of_mem _ hp) h3
        simpa using hlen

/-- C9 witness: the concrete set `[pkgA, pkgDangling]` with the dangling
dependency `PKG_MISSING`. -/
theorem c9_witness :
    analyze_problem_validation wps9 = Except.ok () ∧
    (∀ rec ∈ (execute_work_packages registered_agents ok_worker wps9 3 5).log,
      pkgDangling ∉ rec.batch) ∧
    (execute_work_packages registered_agents ok_worker wps9 3 5).exit ≠
      ExitKind.allDone :=
  c9_dangling_dependency_is_silent registered_agents ok_worker wps9 3 5
    pkgDangling "PKG_MISSING" (by decide) (by decide) (by decide) (by decide)

/-! ## Claim C10 -/

/-- Any path containing `test` or `spec` (after lowering) classifies as a
test file, before any extension rule is consulted. -/
theorem get_file_type_test_of_contains (path : String)
    (h : (str_contains (str_lower path) "test" ||
      str_contains (str_lower path) "spec") = true) :
    get_file_type path = "test" := by
  by_cases hp : path = ""
  · subst hp
    exact absurd h (by decide)
  · simp only [get_file_type]
    rw [if_neg hp, if_pos h]

/-- `List.any` is false when the predicate is false on every element. -/
theorem any_false_of_all {fts : List String} {f : String → Bool}
    (hall : ∀ ft ∈ fts, f ft = false) : fts.any f = false := by
  induction fts with
  | nil => rfl
  | cons x xs ih =>
    simp only [List.any_cons, Bool.or_eq_false_iff]
    exact ⟨hall x (by simp), ih (fun ft hft => hall ft (by simp [hft]))⟩

/-- C10: the `test` classification takes priority over every file-extension
rule — every path containing `test` or `spec` anywhere (case-insensitive)
gets file type `test` — and consequently a package with an unmapped agent tag
all of whose files are such test paths is routed to the QA specialist, not
the backend specialist. -/
theorem c10_test_classification_priority :
    (∀ path : String,
        (str_contains (str_lower path) "test" ||
          str_contains (str_lower path) "spec") = true →
        get_file_type path = "test") ∧
    (∀ p : WorkPackage,
        registered_agents.contains (mapped_agent_name p.agent) = false →
        p.files_to_create ≠ [] →
        (∀ f ∈ p.files_to_create,
          (str_contains (str_lower f.file_path) "test" ||
            str_contains (str_lower f.file_path) "spec") = true) →
        find_agent_for_package registered_agents p = some "qa_specialist") := by
  refine ⟨fun path h => get_file_type_test_of_contains path h, ?_⟩
  intro p h1 h2 h3
  have hall : ∀ ft ∈ p.files_to_create.map (fun f => get_file_type f.file_path),
      ft = "test" := by
    intro ft hft
    obtain ⟨f, hf, hfe⟩ := List.mem_map.mp hft
    rw [← hfe]
    exact get_file_type_test_of_contains _ (h3 f hf)
  obtain ⟨f0, hf0⟩ := List.exists_mem_of_ne_nil p.files_to_create h2
  have hf0m : get_file_type f0.file_path ∈
      p.files_to_create.map (fun f => get_file_type f.file_path) :=
    List.mem_map_of_mem _ hf0
  have htest : ((p.files_to_create.map (fun f => get_file_type f.file_path)).any
      (fun ft => ft == "test")) = true := by
    rw [List.any_eq_true]
    refine ⟨get_file_type f0.file_path, hf0m, ?_⟩
    rw [hall _ hf0m]
    rfl
  have hb : ((p.files_to_create.map (fun f => get_file_type f.file_path)).any
      (fun ft => ft == "python" || ft == "api")) = false :=
    any_false_of_all (fun ft hft => by rw [hall ft hft]; rfl)
  have hfr : ((p.files_to_create.map (fun f => get_file_type f.file_path)).any
      (fun ft => ft == "html" || ft == "css" || ft == "javascript")) = false :=
    any_false_of_all (fun ft hft => by rw [hall ft hft]; rfl)
  have hml : ((p.files_to_create.map (fun f => get_file_type f.file_path)).any
      (fun ft => ft == "ml" || ft == "data")) = false :=
    any_false_of_all (fun ft hft => by rw [hall ft hft]; rfl)
  have hop : ((p.files_to_create.map (fun f => get_file_type f.file_path)).any
      (fun ft => ft == "docker" || ft == "deploy")) = false :=
    any_false_of_all (fun ft hft => by rw [hall ft hft]; rfl)
  have h1' : ¬ (registered_agents.contains (mapped_agent_name p.agent) = true) := by
    rw [h1]
    exact Bool.false_ne_true
  simp only [find_agent_for_package]
  rw [if_neg h1', if_neg (by rw [hb]; exact Bool.false_ne_true),
    if_neg (by rw [hfr]; exact Bool.false_ne_true),
    if_neg (by rw [hml]; exact Bool.false_ne_true),
    if_neg (by rw [hop]; exact Bool.false_ne_true), if_pos htest]
  rfl

/-- C10 witness: `tests/test_api.py` classifies as a test file (although it
also contains `api` and ends in `.py`), and the concrete package `pkg_qa`
routes to the QA specialist. -/
theorem c10_witness :
    get_file_type "tests/test_api.py" = "test" ∧
    find_agent_for_package registered_agents pkg_qa = some "qa_specialist" :=
  ⟨c10_test_classification_priority.1 "tests/test_api.py" (by decide),
   c10_test_classification_priority.2 pkg_qa (by decide) (by decide) (by decide)⟩
